import Mathlib

/-
Verification development for the main-content extraction and Markdown
conversion engine of the web-copilot browser extension.

The engine lives in the page-injected function of PageService.readPageFromTab:
  * getMetaContent        : metadata reader over meta tags
  * extractContent        : noise stripping (denylist removal) on a detached
                            copy of document.body
  * findMainContent       : the content locator (platform overrides, semantic
                            fast path, generic scored candidate pool,
                            sort + length-safety fallback)
  * convertToMarkdown     : the recursive Markdown serializer
                            (with processInlineContent / processBlockContent)

Modeling conventions
  * A DOM tree is a mutual inductive pair Node / NodeList.  An element carries
    its uppercase tagName, its attribute list, and its computed style as an
    oracle (display / visibility / opacity strings, as window.getComputedStyle
    would report them).  Node identity is structural.
  * JavaScript strings are modeled through their character lists; jsTrim /
    jsLen / lowerStr etc. below mirror the String.prototype operations used by
    the source on the ASCII subset (the source never relies on non-ASCII
    whitespace or astral-plane lengths).
  * JavaScript number arithmetic inside the scorer uses only rationals whose
    denominator divides 200, so scores are represented exactly as integers
    scaled by 200 (score200 = 200 * score) and rule confidences scaled by
    40000 (conf40000 = 40000 * confidence).  Every division-based comparison
    (link density > 0.4, code ratio bounds, the 70% rule) is embedded as the
    equivalent cross-multiplied integer comparison; double rounding error is
    not modeled, and no comparison settled below sits at a float boundary.
  * Array.prototype.sort is modeled as a stable insertion sort.  ECMAScript
    2019+ requires sort stability, and for a consistent comparator the stable
    sorted permutation is unique, so any stable sort is a faithful model on
    inputs whose comparator is consistent (all concrete inputs used below are).
  * The serializer can throw in the real code (String.prototype.repeat with a
    negative count, querySelector on a selector built from a malformed class
    attribute); it is therefore embedded with result type Option String, where
    none models a thrown exception.  Recursion is by fuel; the wrapper
    convertToMarkdown supplies fuel sizeN n + 1, which one-step-unfolds to the
    non-recursive dispatch body mdBody, so no fuel reasoning leaks into proofs.
-/

set_option maxRecDepth 40000

/-! ## JavaScript string primitives over character lists -/

/-- The whitespace characters stripped by String.prototype.trim that actually
occur in this development (ASCII subset of the JS whitespace class). -/
def wsChar (c : Char) : Bool := c = ' ' || c = '\t' || c = '\n' || c = '\r'

/-- JS String.prototype.trim. -/
def jsTrim (s : String) : String :=
  ⟨((s.data.dropWhile wsChar).reverse.dropWhile wsChar).reverse⟩

/-- JS String.prototype.length (code points; identical to UTF-16 units on the
basic multilingual plane, which is all the source ever meets). -/
def jsLen (s : String) : Nat := s.data.length

/-- JS String.prototype.toLowerCase on the alphabet used here. -/
def lowerStr (s : String) : String := ⟨s.data.map Char.toLower⟩

/-- ASCII uppercasing (kernel-reducible stand-in for String.toUpper, used to
compare lowercase selector tag names against uppercase DOM tag names). -/
def upperStr (s : String) : String := ⟨s.data.map Char.toUpper⟩

/-- List-level containment of one character list inside another. -/
def listHasInfix (pat : List Char) : List Char → Bool
  | [] => pat.isEmpty
  | c :: cs => pat.isPrefixOf (c :: cs) || listHasInfix pat cs

/-- JS String.prototype.includes. -/
def strIncludes (s pat : String) : Bool := listHasInfix pat.data s.data

/-- JS String.prototype.startsWith. -/
def jsStartsWith (s pat : String) : Bool := pat.data.isPrefixOf s.data

/-- JS String.prototype.split with a single-character separator. -/
def splitCharList (sep : Char) : List Char → List (List Char)
  | [] => [[]]
  | c :: cs =>
      let r := splitCharList sep cs
      if c = sep then [] :: r
      else
        match r with
        | [] => [[c]]
        | h :: t => (c :: h) :: t

/-- JS s.split(sep) for a one-character separator sep. -/
def jsSplitChar (sep : Char) (s : String) : List String :=
  (splitCharList sep s.data).map (fun l => ⟨l⟩)

/-- JS String.prototype.replace with a plain-string pattern: replaces only the
first occurrence (String.replace, not String.replaceAll). -/
def replaceFirstList (pat rep : List Char) : List Char → List Char
  | [] => []
  | c :: cs =>
      if pat.isPrefixOf (c :: cs) then rep ++ (c :: cs).drop pat.length
      else c :: replaceFirstList pat rep cs

/-- JS s.replace(pat, rep) for nonempty plain-string pat. -/
def jsReplaceFirst (s pat rep : String) : String :=
  ⟨replaceFirstList pat.data rep.data s.data⟩

/-- Decimal digit test. -/
def isDigitCh (c : Char) : Bool := '0' ≤ c && c ≤ '9'

/-- JS parseInt applied to the value of a string, radix 10: skips leading
whitespace, takes an optional sign and then the maximal run of decimal digits;
none models NaN (no digits). -/
def parseIntJS (s : String) : Option Int :=
  let t := (s.data.dropWhile wsChar)
  let (neg, t) :=
    match t with
    | '-' :: r => (true, r)
    | '+' :: r => (false, r)
    | r => (false, r)
  let digits := t.takeWhile isDigitCh
  if digits.isEmpty then none
  else
    let n : Nat := digits.foldl (fun a c => a * 10 + (c.toNat - '0'.toNat)) 0
    some (if neg then -(n : Int) else (n : Int))

/-! ## DOM trees -/

/-- Static data of one DOM element: uppercase tag name, attribute list, and the
computed style reported for it by window.getComputedStyle (modeled as an
oracle carried on the element). -/
structure ElemData where
  tag : String
  attrs : List (String × String)
  display : String := ""
  visibility : String := ""
  opacity : String := ""
deriving DecidableEq, Repr

mutual
/-- A DOM node: an element with children, or a text node. -/
inductive Node where
  | elem : ElemData → NodeList → Node
  | text : String → Node
deriving DecidableEq
/-- Children lists, kept as a mutual inductive so that all tree recursions are
structural and kernel-reducible. -/
inductive NodeList where
  | nil : NodeList
  | cons : Node → NodeList → NodeList
deriving DecidableEq
end

def NodeList.toList : NodeList → List Node
  | .nil => []
  | .cons c cs => c :: cs.toList

def NodeList.ofList : List Node → NodeList
  | [] => .nil
  | c :: cs => .cons c (NodeList.ofList cs)

/-- Element constructor from a plain child list. -/
def el (tag : String) (attrs : List (String × String)) (children : List Node) : Node :=
  .elem { tag := tag, attrs := attrs } (NodeList.ofList children)

/-- Text-node constructor. -/
def txt (s : String) : Node := .text s

def Node.dataOf : Node → Option ElemData
  | .elem d _ => some d
  | .text _ => none

def Node.isElem : Node → Bool
  | .elem _ _ => true
  | .text _ => false

def Node.tagName : Node → String
  | .elem d _ => d.tag
  | .text _ => ""

def Node.childNodes : Node → List Node
  | .elem _ cs => cs.toList
  | .text _ => []

/-- element.getAttribute: none models null (attribute absent). -/
def getAttr (n : Node) (name : String) : Option String :=
  match n with
  | .elem d _ => (d.attrs.find? (fun p => p.fst = name)).map (·.snd)
  | .text _ => none

/-- element.className (empty string when the class attribute is absent). -/
def classNameOf (n : Node) : String := (getAttr n "class").getD ""

/-- element.id (empty string when absent). -/
def idOf (n : Node) : String := (getAttr n "id").getD ""

/-- The element's class token list (classList). -/
def classListOf (n : Node) : List String :=
  (jsSplitChar ' ' (classNameOf n)).filter (fun s => s ≠ "")

mutual
/-- Number of nodes of a tree (used as serializer fuel). -/
def sizeN : Node → Nat
  | .text _ => 1
  | .elem _ cs => 1 + sizeL cs
def sizeL : NodeList → Nat
  | .nil => 0
  | .cons c cs => sizeN c + sizeL cs
end

mutual
/-- node.textContent: concatenation of all descendant text. -/
def textContent : Node → String
  | .text s => s
  | .elem _ cs => textContentL cs
def textContentL : NodeList → String
  | .nil => ""
  | .cons c cs => textContent c ++ textContentL cs
end

/-- Trimmed text length, the pervasive `element.textContent?.trim().length || 0`
of the source. -/
def trimTextLen (n : Node) : Nat := jsLen (jsTrim (textContent n))

mutual
/-- Proper descendants of a node paired with their depth (the node's direct
children have depth `d0`), in document (pre-)order. -/
def descPairs (d0 : Nat) : Node → List (Node × Nat)
  | .text _ => []
  | .elem _ cs => descPairsL d0 cs
def descPairsL (d0 : Nat) : NodeList → List (Node × Nat)
  | .nil => []
  | .cons c cs => (c, d0) :: descPairs (d0 + 1) c ++ descPairsL d0 cs
end

/-- Proper descendants in document order. -/
def descendants (n : Node) : List Node := (descPairs 1 n).map (·.fst)

mutual
/-- Number of descendant text nodes with nonempty trimmed content: the
TreeWalker count of the source's countTextNodes. -/
def countTextNodes : Node → Nat
  | .text s => if jsTrim s = "" then 0 else 1
  | .elem _ cs => countTextNodesL cs
def countTextNodesL : NodeList → Nat
  | .nil => 0
  | .cons c cs =>
      (match c with
       | .text s => if jsTrim s = "" then 0 else 1
       | .elem _ cs2 => countTextNodesL cs2) + countTextNodesL cs
end

/-! ## CSS selector fragment used by the source

The source passes string selectors to querySelector(All)/matches.  The
selectors it uses fall in a small fragment: tag names, #id, .class,
[attr="v"], [attr*="v"], bare [attr] presence, and compounds of a tag with one
such attribute test; comma lists are represented as `List Sel` ("matches
any").  Each constant below carries the source selector string it embeds. -/

inductive Sel where
  | tagSel : String → Sel
  | idSel : String → Sel
  | clsSel : String → Sel
  | attrEq : String → String → Sel
  | attrHas : String → String → Sel
  | attrPresent : String → Sel
  | andSel : Sel → Sel → Sel
deriving DecidableEq, Repr

/-- element.matches for one simple/compound selector. -/
def matchesSel (n : Node) : Sel → Bool
  | .tagSel t => n.tagName = upperStr t
  | .idSel i => idOf n = i
  | .clsSel c => (classListOf n).contains c
  | .attrEq a v => getAttr n a = some v
  | .attrHas a v => strIncludes ((getAttr n a).getD "") v && v ≠ ""
  | .attrPresent a => (getAttr n a).isSome
  | .andSel s1 s2 => matchesSel n s1 && matchesSel n s2

/-- element.matches for a comma list of selectors. -/
def matchesAny (n : Node) (sels : List Sel) : Bool :=
  sels.any (fun s => matchesSel n s)

/-- element.querySelectorAll: matching proper descendants in document order. -/
def qsa (n : Node) (sels : List Sel) : List Node :=
  (descendants n).filter (fun c => c.isElem && matchesAny c sels)

/-- element.querySelector. -/
def qs (n : Node) (sels : List Sel) : Option Node := (qsa n sels).head?

/-- element.getElementsByTagName(t).length (live collections are only ever
used for counting or repeated first-removal in the source). -/
def countTag (n : Node) (t : String) : Nat := (qsa n [.tagSel t]).length

/-! ## The document -/

/-- The live document: its head and body subtrees and location.href.  The
extraction engine reads the live document only in trySpecificPlatforms and
getMetaContent; everything else operates on the detached stripped body copy. -/
structure Document where
  head : Node
  body : Node
  url : String
deriving DecidableEq

/-- document.querySelectorAll order: the head subtree then the body subtree,
each element taken inclusively in document order. -/
def docElems (d : Document) : List Node :=
  (d.head :: descendants d.head) ++ (d.body :: descendants d.body)

/-- document.querySelector. -/
def docQS (d : Document) (sels : List Sel) : Option Node :=
  ((docElems d).filter (fun c => c.isElem && matchesAny c sels)).head?

/-! ## Metadata reader (getMetaContent and the metadata record) -/

/-- The selector pair `meta[name="name"], meta[property="name"]`. -/
def metaSelsFor (name : String) : List Sel :=
  [.andSel (.tagSel "meta") (.attrEq "name" name),
   .andSel (.tagSel "meta") (.attrEq "property" name)]

/-- getMetaContent: reads the content attribute of
`meta[name="name"], meta[property="name"]`; the source's `content || undefined`
turns both a missing tag, a missing attribute and an empty content string into
undefined (none). -/
def getMetaContent (d : Document) (name : String) : Option String :=
  match docQS d (metaSelsFor name) with
  | none => none
  | some m =>
      match getAttr m "content" with
      | none => none
      | some c => if c = "" then none else some c

/-- The metadata record assembled by the injected function. -/
structure PageMetadata where
  description : Option String
  keywords : Option (List String)
  author : Option String
  publishedTime : Option String
deriving DecidableEq

/-- The metadata block of readPageFromTab: keywords are comma-split and
trimmed when present and nonempty. -/
def readMetadata (d : Document) : PageMetadata :=
  let keywords := getMetaContent d "keywords"
  { description := getMetaContent d "description"
    keywords :=
      match keywords with
      | some s => some ((jsSplitChar ',' s).map jsTrim)
      | none => none
    author := getMetaContent d "author"
    publishedTime := getMetaContent d "article:published_time" }

/-! ## Noise stripping (extractContent pre-pass) -/

/-- The elementsToRemove denylist of extractContent. -/
def elementsToRemove : List String :=
  ["script", "style", "iframe", "nav", "header", "footer", "noscript",
   "form", "button", "input", "select", "textarea"]

def isTagNode (t : String) : Node → Bool
  | .elem d _ => d.tag = upperStr t
  | .text _ => false

mutual
/-- Removal of every descendant element with the given (lowercase) tag name:
the effect of the source's `while (elements.length > 0) remove(elements[0])`
over the live getElementsByTagName collection. -/
def removeTag (t : String) : Node → Node
  | .text s => .text s
  | .elem d cs => .elem d (removeTagL t cs)
def removeTagL (t : String) : NodeList → NodeList
  | .nil => .nil
  | .cons c cs =>
      if isTagNode t c then removeTagL t cs
      else .cons (removeTag t c) (removeTagL t cs)
end

/-- One denylist strip pass over the working copy (document.body.cloneNode is
the identity on the modeled value; the strip rebuilds the tree). -/
def stripNoise (body : Node) : Node :=
  elementsToRemove.foldl (fun acc t => removeTag t acc) body

/-- The working copy contentContainer of extractContent. -/
def contentContainerOf (d : Document) : Node := stripNoise d.body

/-! ## Content Locator: exclusion and scoring -/

/-- The excludeSelectors list of findMainContent, in source order:
header, footer, nav, aside, .sidebar, .comment, .comments, .ad,
.advertisement, .banner, #header, #footer, #sidebar, #comments, #navigation,
[class*="sidebar"], [class*="advert"], [id*="advert"], [role*="navigation"],
[role*="banner"], [class*="nav-"], [class*="-nav"], [class*="menu"],
[class*="social"], [class*="related"], [class*="widget"], [class*="toolbar"],
form, .search, #search, [class*="search"]. -/
def excludeSels : List Sel :=
  [.tagSel "header", .tagSel "footer", .tagSel "nav", .tagSel "aside",
   .clsSel "sidebar", .clsSel "comment", .clsSel "comments", .clsSel "ad",
   .clsSel "advertisement", .clsSel "banner",
   .idSel "header", .idSel "footer", .idSel "sidebar", .idSel "comments",
   .idSel "navigation",
   .attrHas "class" "sidebar", .attrHas "class" "advert", .attrHas "id" "advert",
   .attrHas "role" "navigation", .attrHas "role" "banner",
   .attrHas "class" "nav-", .attrHas "class" "-nav", .attrHas "class" "menu",
   .attrHas "class" "social", .attrHas "class" "related",
   .attrHas "class" "widget", .attrHas "class" "toolbar",
   .tagSel "form", .clsSel "search", .idSel "search", .attrHas "class" "search"]

/-- isExcludedElement: computed-invisible elements (display none, visibility
hidden, opacity 0) or elements matching the exclusion selector list. -/
def isExcludedElement (e : Node) : Bool :=
  (match e.dataOf with
   | some d => d.display = "none" || d.visibility = "hidden" || d.opacity = "0"
   | none => false)
  || matchesAny e excludeSels

/-- The six heading tag selectors `h1, h2, h3, h4, h5, h6`. -/
def headingSels : List Sel :=
  [.tagSel "h1", .tagSel "h2", .tagSel "h3", .tagSel "h4", .tagSel "h5", .tagSel "h6"]

/-- `pre, code, [class*="code"], [class*="language-"]`. -/
def codeBlockSels : List Sel :=
  [.tagSel "pre", .tagSel "code", .attrHas "class" "code", .attrHas "class" "language-"]

/-- `[class*="api"], [id*="api"], [class*="reference"], [id*="reference"]`. -/
def apiSels : List Sel :=
  [.attrHas "class" "api", .attrHas "id" "api",
   .attrHas "class" "reference", .attrHas "id" "reference"]

/-- The introductory-language alternatives of the regex
`/introduction|overview|getting started|简介|概述|入门/i`. -/
def introPatterns : List String :=
  ["introduction", "overview", "getting started", "简介", "概述", "入门"]

/-- The API-keyword alternatives of the regex
`/api|reference|props|parameters|arguments|methods|functions|attributes|options|configuration|interface|类型|参数|方法|属性|配置|接口/i`. -/
def apiKeywordPatterns : List String :=
  ["api", "reference", "props", "parameters", "arguments", "methods",
   "functions", "attributes", "options", "configuration", "interface",
   "类型", "参数", "方法", "属性", "配置", "接口"]

/-- Case-insensitive regex-alternation test used by signals 11 and 12. -/
def matchesAnyPattern (s : String) (pats : List String) : Bool :=
  pats.any (fun p => strIncludes (lowerStr s) (lowerStr p))

/-- The content/main/article/post/doc keyword test on a lowercased class or id
string (signal 14). -/
def hasContentKeyword (s : String) : Bool :=
  strIncludes s "content" || strIncludes s "main" || strIncludes s "article" ||
  strIncludes s "post" || strIncludes s "doc"

/-- scoreElement, exactly as the source accumulates it, with the score scaled
by 200 so that every JS float value appearing in it is an integer here
(length/100 contributes 2*len, the 1.5-per-level depth penalty contributes
300 per level, a plain point is worth 200).  The element's ancestor count
inside the detached working copy is passed as depth (the source walks
parentElement to null). -/
def scoreElement200 (e : Node) (depth : Nat) : Int :=
  if isExcludedElement e then 0
  else
    let textLength := trimTextLen e
    -- 1. content length: min(len/100, 50), then halved when len < 100
    let score : Int := min (2 * (textLength : Int)) 10000
    let score : Int := if textLength < 100 then score / 2 else score
    -- 2. paragraph count: min(2p, 30)
    let paragraphs := countTag e "p"
    let score := score + min (400 * (paragraphs : Int)) 6000
    -- 3. headings: min(8h, 40), +15 for a full heading hierarchy
    let headings := (qsa e headingSels).length
    let score := score + min (1600 * (headings : Int)) 8000
    let score := score +
      (if 2 ≤ headings ∧ (qs e [.tagSel "h1", .tagSel "h2"]).isSome ∧
          (qs e [.tagSel "h3", .tagSel "h4", .tagSel "h5", .tagSel "h6"]).isSome
       then 3000 else 0)
    -- 4. code blocks: min(10c, 30), +20 when API-like classes/ids are present
    let codeBlocks := (qsa e codeBlockSels).length
    let score := score + min (2000 * (codeBlocks : Int)) 6000
    let apiElements := (qsa e apiSels).length
    let score := score + (if 0 < apiElements then 4000 else 0)
    -- 5. images: min(3i, 15)
    let images := countTag e "img"
    let score := score + min (600 * (images : Int)) 3000
    -- 6. tables: min(15t, 30), +15 for a complex table (>3 rows, >10 cells)
    let tables := countTag e "table"
    let score := score + min (3000 * (tables : Int)) 6000
    let tableRows := (qsa e [.tagSel "tr"]).length
    let tableCells := (qsa e [.tagSel "td", .tagSel "th"]).length
    let score := score +
      (if 0 < tables ∧ 3 < tableRows ∧ 10 < tableCells then 3000 else 0)
    -- 7. link density: -15 when links/max(len,1) > 0.4, cross-multiplied
    let links := countTag e "a"
    let score := score - (if 2 * (max textLength 1) < 5 * links then 3000 else 0)
    -- 8. tag identity bonuses (cumulative, as the source's separate ifs)
    let score := score + (if e.tagName = "ARTICLE" then 6000 else 0)
    let score := score + (if e.tagName = "MAIN" then 5000 else 0)
    let score := score + (if e.tagName = "SECTION" then 3000 else 0)
    let score := score + (if getAttr e "role" = some "main" then 5000 else 0)
    let score := score + (if getAttr e "role" = some "document" then 5000 else 0)
    let score := score + (if getAttr e "role" = some "article" then 5000 else 0)
    -- 9. nesting depth: -1.5 per ancestor level
    let score := score - 300 * (depth : Int)
    -- 10. lists: min(5l, 15), +10 when the element has more than 8 li items
    let lists := (qsa e [.tagSel "ul", .tagSel "ol"]).length
    let score := score + min (1000 * (lists : Int)) 3000
    let listItems := (qsa e [.tagSel "li"]).length
    let score := score + (if 0 < lists ∧ 8 < listItems then 2000 else 0)
    -- 11. introductory-language match: +15
    let score := score + (if matchesAnyPattern (textContent e) introPatterns then 3000 else 0)
    -- 12. API keyword match: +20
    let score := score + (if matchesAnyPattern (textContent e) apiKeywordPatterns then 4000 else 0)
    -- 13. code-to-text ratio in (0.05, 0.5): +15, cross-multiplied
    let textNodes := countTextNodes e
    let codeElements := (qsa e [.tagSel "code", .tagSel "pre"]).length
    let score := score +
      (if 0 < textNodes ∧ 0 < codeElements ∧
          textNodes < 20 * codeElements ∧ 2 * codeElements < textNodes
       then 3000 else 0)
    -- 14. content keyword in class name or id: +10
    let score := score +
      (if hasContentKeyword (lowerStr (classNameOf e)) ∨
          hasContentKeyword (lowerStr (idOf e)) then 2000 else 0)
    max 0 score

/-! ## Content Locator: strategy layers and selection -/

/-- A candidate record (MainContentResult).  confidence is scaled by 40000 and
score by 200 so that both are exact integers; the debugInfo diagnostic string
is not semantically load-bearing and is omitted. -/
structure MainContentResult where
  element : Node
  conf40000 : Int
  score200 : Int
  textLength : Nat
deriving DecidableEq

/-- Feishu detector `.bear-web-x-container, .docx-page-block, .page-block-content`. -/
def feishuDetectSels : List Sel :=
  [.clsSel "bear-web-x-container", .clsSel "docx-page-block", .clsSel "page-block-content"]

/-- Feishu content `.page-main-item.editor, .page-block-children`. -/
def feishuContentSels : List Sel :=
  [.andSel (.clsSel "page-main-item") (.clsSel "editor"), .clsSel "page-block-children"]

/-- Radix content `main[class*="content"], [class*="docs-content"], [id*="content"]`. -/
def radixContentSels : List Sel :=
  [.andSel (.tagSel "main") (.attrHas "class" "content"),
   .attrHas "class" "docs-content", .attrHas "id" "content"]

/-- Technical-docs detector `[class*="article"], [class*="documentation"], [class*="docs-"]`. -/
def mdnDetectSels : List Sel :=
  [.attrHas "class" "article", .attrHas "class" "documentation", .attrHas "class" "docs-"]

/-- Technical-docs content `[class*="article-content"], [class*="doc-content"], main[class*="content"]`. -/
def mdnContentSels : List Sel :=
  [.attrHas "class" "article-content", .attrHas "class" "doc-content",
   .andSel (.tagSel "main") (.attrHas "class" "content")]

/-- trySpecificPlatforms: the three platform rules in source order, each
firing only when its detector matches the live document and its content
selector resolves; fixed scores 190/180/170 and confidences 0.95/0.9/0.85.
Note that these rules query the live document, not the stripped copy. -/
def trySpecificPlatforms (d : Document) : Option MainContentResult :=
  let feishu :=
    if (docQS d feishuDetectSels).isSome then docQS d feishuContentSels else none
  match feishu with
  | some e =>
      some { element := e, conf40000 := 38000, score200 := 38000,
             textLength := trimTextLen e }
  | none =>
      let radix :=
        if (docQS d [.attrHas "class" "radix"]).isSome || strIncludes d.url "radix-ui.com"
        then docQS d radixContentSels else none
      match radix with
      | some e =>
          some { element := e, conf40000 := 36000, score200 := 36000,
                 textLength := trimTextLen e }
      | none =>
          let mdn :=
            if (docQS d mdnDetectSels).isSome then docQS d mdnContentSels else none
          match mdn with
          | some e =>
              some { element := e, conf40000 := 34000, score200 := 34000,
                     textLength := trimTextLen e }
          | none => none

/-- evaluateSemanticCandidate: confidence is the base discounted by 0.7 when
the text is below the minimum content length; the score is the base
confidence times 100 (score200 = base40000 / 2). -/
def evalSemanticCand (eOpt : Option Node) (base40000 : Int) : Option MainContentResult :=
  match eOpt with
  | none => none
  | some e =>
      let len := trimTextLen e
      some { element := e,
             conf40000 := if len < 100 then base40000 * 7 / 10 else base40000,
             score200 := base40000 / 2,
             textLength := len }

/-- Stable insertion of one element into a sorted list (x precedes the first y
with le x y). -/
def insertStable (le : α → α → Bool) (x : α) : List α → List α
  | [] => [x]
  | y :: ys => if le x y then x :: y :: ys else y :: insertStable le x ys

/-- Stable insertion sort: the model of Array.prototype.sort (ES2019+ sorts
are stable, and the stable sorted permutation of a consistent comparator is
unique). -/
def jsSortStable (le : α → α → Bool) : List α → List α
  | [] => []
  | x :: xs => insertStable le x (jsSortStable le xs)

/-- trySemanticElements: main, article, [role="main"], [role="article"],
[role="document"] in order, first sufficiently long match wins; otherwise the
longest of the evaluated candidates is retained. -/
def trySemanticElements (container : Node) : Option MainContentResult :=
  let mainR := evalSemanticCand (qs container [.tagSel "main"]) 38000
  let articleR := evalSemanticCand (qs container [.tagSel "article"]) 36000
  let roleMainR := evalSemanticCand (qs container [.attrEq "role" "main"]) 34000
  let roleArticleR := evalSemanticCand (qs container [.attrEq "role" "article"]) 34000
  let roleDocR := evalSemanticCand (qs container [.attrEq "role" "document"]) 32000
  let isGood : Option MainContentResult → Bool := fun r =>
    match r with
    | some r => 100 ≤ r.textLength
    | none => false
  if isGood mainR then mainR
  else if isGood articleR then articleR
  else if isGood roleMainR then roleMainR
  else if isGood roleArticleR then roleArticleR
  else if isGood roleDocR then roleDocR
  else
    let cands := [mainR, articleR, roleMainR, roleArticleR, roleDocR].filterMap id
    (jsSortStable (fun a b => b.textLength ≤ a.textLength) cands).head?

/-- The candidateSelectors list of findMainContent, in source order (each
entry is one selector string, processed separately). -/
def candidateSels : List Sel :=
  [.tagSel "article", .tagSel "main", .tagSel "section",
   .attrEq "role" "main", .attrEq "role" "article", .attrEq "role" "document",
   .attrEq "role" "contentinfo",
   .idSel "main", .idSel "main-content", .idSel "mainContent", .idSel "article",
   .idSel "post", .idSel "post-content", .idSel "content",
   .idSel "documentation", .idSel "docs-content", .idSel "api-reference",
   .clsSel "docs-content", .clsSel "markdown-body", .clsSel "documentation-content",
   .clsSel "api-content", .clsSel "api-docs",
   .clsSel "api-reference", .clsSel "docs-section", .clsSel "main-content"]

/-- querySelectorAll keeping each element's depth below the queried root. -/
def qsaPairs (n : Node) (sels : List Sel) : List (Node × Nat) :=
  (descPairs 1 n).filter (fun p => p.fst.isElem && matchesAny p.fst sels)

/-- Deduplicating candidate push: skip elements already collected and
elements matching the exclusion rules. -/
def pushCandidates (acc : List (Node × Nat)) (found : List (Node × Nat)) :
    List (Node × Nat) :=
  found.foldl
    (fun acc2 p =>
      if acc2.any (fun q => q.fst = p.fst) || isExcludedElement p.fst then acc2
      else acc2 ++ [p])
    acc

/-- Candidate gathering: the candidateSelectors pass, then the broad
`div, section, article, main` scan when the pool is empty or has no element
of minimum content length. -/
def gatherCandidates (container : Node) : List (Node × Nat) :=
  let cands := candidateSels.foldl
    (fun acc sel => pushCandidates acc (qsaPairs container [sel])) []
  if cands.isEmpty || !cands.any (fun p => 100 ≤ trimTextLen p.fst) then
    pushCandidates cands
      (qsaPairs container
        [.tagSel "div", .tagSel "section", .tagSel "article", .tagSel "main"])
  else cands

/-- evaluateContent: score the candidate; its confidence is score/200, so
conf40000 coincides with score200. -/
def evaluateContent (p : Node × Nat) : MainContentResult :=
  let s := scoreElement200 p.fst p.snd
  { element := p.fst, conf40000 := s, score200 := s,
    textLength := trimTextLen p.fst }

/-- The pooled recognition results: platform result, then semantic result,
then every scored candidate. -/
def recognitionResults (d : Document) : List MainContentResult :=
  let container := contentContainerOf d
  (match trySpecificPlatforms d with | some r => [r] | none => []) ++
  (match trySemanticElements container with | some r => [r] | none => []) ++
  (gatherCandidates container).map evaluateContent

/-- The sort comparator: by score descending when the scores differ by more
than 50 points, otherwise by text length descending (le a b says a may stay
before b). -/
def resultLE (a b : MainContentResult) : Bool :=
  if 10000 < (b.score200 - a.score200).natAbs then b.score200 ≤ a.score200
  else b.textLength ≤ a.textLength

/-- The better-length condition of the final selection: strictly more than
twice the top text length and a score strictly above 70% of the top score
(cross-multiplied). -/
def betterLengthCond (top c : MainContentResult) : Bool :=
  top.textLength * 2 < c.textLength && 7 * top.score200 < 10 * c.score200

/-- The final selection over the sorted results: empty pool falls back to the
container; a short top (< 3x minimum) may be replaced by the first
better-length candidate; a top below the minimum content length falls back to
the container. -/
def selectTop (results : List MainContentResult) (container : Node) : Node :=
  match jsSortStable resultLE results with
  | [] => container
  | top :: rest =>
      let viaBetter : Option Node :=
        if top.textLength < 300 then
          ((top :: rest).find? (fun c => betterLengthCond top c)).map (·.element)
        else none
      match viaBetter with
      | some e => e
      | none => if top.textLength < 100 then container else top.element

/-- findMainContent: always returns an element of the modeled document (never
null); the extraction then serializes exactly this element. -/
def findMainContent (d : Document) : Node :=
  selectTop (recognitionResults d) (contentContainerOf d)

/-! ## Markdown serializer (convertToMarkdown)

The serializer is embedded with result type Option String: none models a
thrown exception (String.prototype.repeat with a negative count in the
heading branch, or querySelector on a selector string built from a malformed
class attribute in the gutter-removal paths).  All dispatch logic lives in
the non-recursive mdBody, parameterized by the recursive call; mdF ties the
knot by fuel, and convertToMarkdown supplies ample fuel (sizeN e + 1), which
lets every proof unfold exactly one step without fuel arithmetic. -/

/-- The recognized inline tags. -/
def inlineTags : List String :=
  ["SPAN", "STRONG", "EM", "B", "I", "CODE", "SUB", "SUP", "MARK", "SMALL",
   "DEL", "INS", "U"]

def isInlineElement (e : Node) : Bool := inlineTags.contains e.tagName

/-- processInlineContent: text-node children are trimmed, element children are
serialized in inline mode, everything is concatenated. -/
def processInlineContent (rec : Node → Bool → Option String) (e : Node) :
    Option String :=
  e.childNodes.foldlM
    (fun acc child =>
      match child with
      | .text s => some (acc ++ jsTrim s)
      | .elem _ _ => (rec child true).map (fun t => acc ++ t))
    ""

/-- processBlockContent: text nodes and inline children accumulate on the
current line (text kept untrimmed); a non-inline child flushes the pending
line and appends its own block rendering; a pending line is flushed at the
end. -/
def processBlockContent (rec : Node → Bool → Option String) (e : Node) :
    Option String := do
  let st ← e.childNodes.foldlM
    (fun (st : String × String) child =>
      match child with
      | .text s => some (st.fst, if s = "" then st.snd else st.snd ++ s)
      | .elem _ _ =>
          if isInlineElement child then
            (rec child true).map (fun t => (st.fst, st.snd ++ t))
          else
            (rec child false).map (fun t =>
              ((if st.snd = "" then st.fst else st.fst ++ st.snd ++ "\n") ++ t, ""))
      )
    ("", "")
  pure (if st.snd = "" then st.fst else st.fst ++ st.snd ++ "\n")

/-- Tag test for /^H[1-6]$/ (case-sensitive; DOM tag names are uppercase). -/
def isHeadingTagStr (t : String) : Bool :=
  ["H1", "H2", "H3", "H4", "H5", "H6"].contains t

/-- Attribute test for /^h[1-6]$/i. -/
def isHNString (s : String) : Bool :=
  match s.data with
  | [h, d] => (h = 'h' || h = 'H') && ('1' ≤ d && d ≤ '6')
  | _ => false

/-- Truthiness of a JS string-or-null value. -/
def strTruthy : Option String → Bool
  | none => false
  | some s => s ≠ ""

/-- JS a || b on string-or-null values. -/
def jsOrStr (a b : Option String) : Option String :=
  if strTruthy a then a else b

/-- `getAttribute('data-block-type')?.startsWith('heading')` with JS optional
chaining (absent attribute is falsy). -/
def blockTypeStartsHeading (e : Node) : Bool :=
  match getAttr e "data-block-type" with
  | some bt => jsStartsWith bt "heading"
  | none => false

/-- The heading-detection predicate of the serializer's first branch. -/
def isHeadingElement (e : Node) : Bool :=
  isHeadingTagStr e.tagName ||
  (e.tagName = "DIV" &&
    (blockTypeStartsHeading e || isHNString ((getAttr e "data-type").getD "")))

/-- The heading level exactly as the source computes it: the tag digit, or
parseInt of the heading<N> remainder (with '1' substituted for an empty
remainder), or the digit of an h<N> data-type, or 1; none models NaN. -/
def headingLevel (e : Node) : Option Int :=
  if isHeadingTagStr e.tagName then
    parseIntJS ⟨e.tagName.data.drop 1⟩
  else if blockTypeStartsHeading e then
    let r := jsReplaceFirst ((getAttr e "data-block-type").getD "") "heading" ""
    parseIntJS (if r = "" then "1" else r)
  else if isHNString ((getAttr e "data-type").getD "") then
    parseIntJS ⟨((getAttr e "data-type").getD "").data.drop 1⟩
  else some 1

/-- '#'.repeat on a JS number that may be NaN: NaN converts to 0 repetitions,
a negative count throws RangeError (none). -/
def jsRepeatHash : Option Int → Option String
  | none => some ""
  | some n => if n < 0 then none else some ⟨List.replicate n.toNat '#'⟩

/-- Alphanumeric test for the language capture group [a-zA-Z0-9]+. -/
def isAlnumCh (c : Char) : Bool :=
  ('a' ≤ c && c ≤ 'z') || ('A' ≤ c && c ≤ 'Z') || isDigitCh c

/-- One attempt of /(?:lang|language|highlight)-([a-zA-Z0-9]+)/ at a fixed
position for a fixed alternative. -/
def langTryPat (p : List Char) (l : List Char) : Option (List Char) :=
  if p.isPrefixOf l then
    let run := (l.drop p.length).takeWhile isAlnumCh
    if run.isEmpty then none else some run
  else none

/-- The regex alternation at one position (JS tries lang, language, highlight
in order; at any one position at most one of the dash-terminated prefixes can
match, so ordered choice is faithful). -/
def langAtPos (l : List Char) : Option (List Char) :=
  match langTryPat "lang-".data l with
  | some r => some r
  | none =>
      match langTryPat "language-".data l with
      | some r => some r
      | none => langTryPat "highlight-".data l

/-- Left-to-right scan of /(?:lang|language|highlight)-([a-zA-Z0-9]+)/,
returning the first capture. -/
def jsLangMatchList : List Char → Option (List Char)
  | [] => none
  | c :: cs =>
      match langAtPos (c :: cs) with
      | some r => some r
      | none => jsLangMatchList cs

/-- Language detection from a class string. -/
def jsLangMatch (s : String) : Option String :=
  (jsLangMatchList s.data).map (fun l => ⟨l⟩)

/-- `.gutter, .line-numbers, [data-line-number], [class*="linenumber"],
[class*="line-number"], [class*="gutter"]` (structured code-block branch). -/
def blockGutterSels : List Sel :=
  [.clsSel "gutter", .clsSel "line-numbers", .attrPresent "data-line-number",
   .attrHas "class" "linenumber", .attrHas "class" "line-number",
   .attrHas "class" "gutter"]

/-- The pre-branch gutterSelectors list: adds .line-number and
.hljs-ln-numbers to the block list. -/
def preGutterSels : List Sel :=
  [.clsSel "gutter", .clsSel "line-numbers", .clsSel "line-number",
   .clsSel "hljs-ln-numbers", .attrPresent "data-line-number",
   .attrHas "class" "linenumber", .attrHas "class" "line-number",
   .attrHas "class" "gutter"]

/-- The non-gutter, non-line-number, contenteditable filter applied to the
children of a [data-type="code-line"] element. -/
def keepCodeLineChild (child : Node) : Bool :=
  ((getAttr child "contenteditable").isNone ||
     getAttr child "contenteditable" ≠ some "false") &&
  !(classListOf child).contains "gutter" &&
  !(classListOf child).contains "line-number" &&
  !(classListOf child).contains "line-numbers"

/-- Extraction of one code line's text (element children filtered, text
children trimmed). -/
def codeLineText (line : Node) : String :=
  line.childNodes.foldl
    (fun acc child =>
      match child with
      | .elem _ _ =>
          if keepCodeLineChild child then acc ++ jsTrim (textContent child) else acc
      | .text s => acc ++ jsTrim s)
    ""

/-- The CSS selector the gutter-removal paths build from a found gutter
element: its tagName plus its dot-joined class tokens.  A class attribute
containing consecutive, leading or trailing spaces produces an invalid
selector, on which the real querySelector throws (none). -/
def selectorFromNode (g : Node) : Option (Node → Bool) :=
  let cn := classNameOf g
  if cn = "" then some (fun c => c.tagName = g.tagName)
  else
    let tokens := jsSplitChar ' ' cn
    if tokens.any (fun t => t = "") then none
    else
      some (fun c =>
        c.tagName = g.tagName && tokens.all (fun t => (classListOf c).contains t))

mutual
/-- Removal of the first proper descendant satisfying p (document order),
with a flag reporting whether one was found. -/
def remFirstNode (p : Node → Bool) : Node → (Node × Bool)
  | .text s => (.text s, false)
  | .elem d cs =>
      let r := remFirstList p cs
      (.elem d r.fst, r.snd)
def remFirstList (p : Node → Bool) : NodeList → (NodeList × Bool)
  | .nil => (.nil, false)
  | .cons c cs =>
      if p c then (cs, true)
      else
        let r := remFirstNode p c
        if r.snd then (.cons r.fst cs, true)
        else
          let r2 := remFirstList p cs
          (.cons c r2.fst, r2.snd)
end

/-- The clone-then-remove-each-gutter loop shared by the structured code
block and the pre branch: for each collected gutter element, querySelector
with its reconstructed selector and remove the first match. -/
def removeGutters (gutters : List Node) (root : Node) : Option Node :=
  gutters.foldlM
    (fun acc g =>
      match selectorFromNode g with
      | none => none
      | some p => some (remFirstNode p acc).fst)
    root

/-- The quote rendering shared by the quote block type and blockquote: every
nonempty line prefixed with "> ", empty lines replaced by ">". -/
def quoteRender (content : String) : String :=
  String.intercalate "\n"
    ((jsSplitChar '\n' content).map (fun l => if l = "" then ">" else "> " ++ l))
  ++ "\n\n"

/-- The structured code block type of the p/div dispatch. -/
def codeBlockRender (e : Node) : Option String :=
  let language0 := (getAttr e "data-language").getD ""
  let codeLines := qsa e [.attrEq "data-type" "code-line"]
  let gutters := qsa e blockGutterSels
  let content? : Option String :=
    if codeLines ≠ [] then
      some (codeLines.foldl (fun acc line => acc ++ codeLineText line ++ "\n") "")
    else if gutters ≠ [] then
      (removeGutters gutters e).map (fun temp => jsTrim (textContent temp))
    else
      some (jsTrim (textContent e))
  match content? with
  | none => none
  | some content =>
      let language :=
        if language0 = "" then (jsLangMatch (classNameOf e)).getD "" else language0
      some ("```" ++ language ++ "\n" ++ jsTrim content ++ "\n```\n\n")

/-- The bullet-list block type: nonblank text lines prefixed with "- ". -/
def bulletListRender (e : Node) : String :=
  String.intercalate "\n"
    (((jsSplitChar '\n' (textContent e)).filter (fun l => jsTrim l ≠ "")).map
      (fun l => "- " ++ jsTrim l))
  ++ "\n\n"

/-- The numbered-list block type: nonblank text lines prefixed 1-based. -/
def numberedListRender (e : Node) : String :=
  String.intercalate "\n"
    ((((jsSplitChar '\n' (textContent e)).filter (fun l => jsTrim l ≠ "")).enum).map
      (fun p => toString (p.fst + 1) ++ ". " ++ jsTrim p.snd))
  ++ "\n\n"

/-- `.gutter, [class*="gutter"]` of the table branch. -/
def tableGutterSels : List Sel := [.clsSel "gutter", .attrHas "class" "gutter"]

/-- `.code, [class*="code"]` of the table branch. -/
def tableCodeSels : List Sel := [.clsSel "code", .attrHas "class" "code"]

/-- The table branch's cell/row exclusion list: .gutter, .line-numbers,
[data-role="gutter"], [class*="gutter"], [class*="helper"],
[class*="decoration"]. -/
def tableIgnoreSels : List Sel :=
  [.clsSel "gutter", .clsSel "line-numbers", .attrEq "data-role" "gutter",
   .attrHas "class" "gutter", .attrHas "class" "helper",
   .attrHas "class" "decoration"]

def shouldSkipCell (c : Node) : Bool := matchesAny c tableIgnoreSels

/-- The code-fence rendering of a syntax-highlighter table (both gutter- and
code-styled regions present): language sniffed from the code region's class,
content from its trimmed text. -/
def tableCodeOrBlock (rec : Node → Bool → Option String) (e : Node) :
    Option String :=
  let hasGutter := (qs e tableGutterSels).isSome
  let hasCode := (qs e tableCodeSels).isSome
  if hasGutter && hasCode then
    match qs e tableCodeSels with
    | some ce =>
        let language := (jsLangMatch (classNameOf ce)).getD ""
        some ("```" ++ language ++ "\n" ++ jsTrim (textContent ce) ++ "\n```\n\n")
    | none => processBlockContent rec e
  else processBlockContent rec e

/-- The pipe-table rendering of the table branch: a header line plus a ---
separator line when the first row has any non-excluded th cells, then the
data rows from the computed start index, with excluded rows and cells
skipped. -/
def tableNormal (rec : Node → Bool → Option String) (e : Node) :
    Option String := do
  let rows := qsa e [.tagSel "tr"]
  let headerCells ←
    match rows.head? with
    | some headerRow =>
        ((qsa headerRow [.tagSel "th"]).filter (fun c => !shouldSkipCell c)).mapM
          (processInlineContent rec)
    | none => pure []
  let headerPart :=
    if headerCells ≠ [] then
      "| " ++ String.intercalate " | " headerCells ++ " |\n" ++
      "| " ++ String.intercalate " | " (headerCells.map (fun _ => "---")) ++ " |\n"
    else ""
  let start : Nat :=
    match rows.head? with
    | some headerRow => if 0 < (qsa headerRow [.tagSel "th"]).length then 1 else 0
    | none => 0
  let bodyPart ← (rows.drop start).foldlM
    (fun acc row =>
      if shouldSkipCell row then pure acc
      else do
        let cells ←
          ((qsa row [.tagSel "td"]).filter (fun c => !shouldSkipCell c)).mapM
            (processInlineContent rec)
        pure (if cells ≠ [] then
                acc ++ "| " ++ String.intercalate " | " cells ++ " |\n"
              else acc))
    ""
  pure (headerPart ++ bodyPart ++ "\n")

/-- The serializer's full dispatch body, parameterized by the recursive call
(tied by fuel in mdF below).  The branch order follows the source:
heading, p/div (with block types), inline tags, br, ul/ol, a, img, pre,
blockquote, table, generic block fallthrough. -/
def mdBody (rec : Node → Bool → Option String) (e : Node) (isInline : Bool) :
    Option String :=
  if isHeadingElement e then do
    let hashes ← jsRepeatHash (headingLevel e)
    let text ← processInlineContent rec e
    pure (hashes ++ " " ++ text ++ "\n\n")
  else if e.tagName = "P" || e.tagName = "DIV" then
    let bt := getAttr e "data-block-type"
    let dt := getAttr e "data-type"
    if strTruthy bt || strTruthy dt then
      match jsOrStr bt dt with
      | some "quote" => (processBlockContent rec e).map quoteRender
      | some "code" => codeBlockRender e
      | some "bullet-list" => some (bulletListRender e)
      | some "ul" => some (bulletListRender e)
      | some "numbered-list" => some (numberedListRender e)
      | some "ol" => some (numberedListRender e)
      | _ =>
          if isInline then processInlineContent rec e
          else processBlockContent rec e
    else if isInline then processInlineContent rec e
    else processBlockContent rec e
  else if isInlineElement e then do
    let text ← processInlineContent rec e
    let wrapped :=
      if e.tagName = "STRONG" || e.tagName = "B" then "**" ++ text ++ "**"
      else if e.tagName = "EM" || e.tagName = "I" then "*" ++ text ++ "*"
      else if e.tagName = "CODE" then "`" ++ text ++ "`"
      else if e.tagName = "DEL" then "~~" ++ text ++ "~~"
      else if e.tagName = "INS" || e.tagName = "U" then "__" ++ text ++ "__"
      else text
    pure (wrapped ++ (if isInline then "" else "\n"))
  else if e.tagName = "BR" then
    some (if isInline then "\n" else "\n\n")
  else if e.tagName = "UL" || e.tagName = "OL" then do
    let items ← (qsa e [.tagSel "li"]).enum.foldlM
      (fun acc p => do
        let t ← processInlineContent rec p.snd
        let prefixStr :=
          if e.tagName = "UL" then "- " else toString (p.fst + 1) ++ ". "
        pure (acc ++ prefixStr ++ t ++ "\n"))
      ""
    pure (items ++ "\n")
  else if e.tagName = "A" then do
    let href := (getAttr e "href").getD ""
    let text ← processInlineContent rec e
    pure ("[" ++ (if text = "" then href else text) ++ "](" ++ href ++ ")")
  else if e.tagName = "IMG" then
    let src := (getAttr e "src").getD ""
    if jsStartsWith src "data:image" then some ""
    else
      let alt := (getAttr e "alt").getD ""
      some ("![" ++ alt ++ "](" ++ src ++ ")")
  else if e.tagName = "PRE" then
    match qs e [.tagSel "code"] with
    | some ce =>
        let language := (jsLangMatch (classNameOf ce)).getD ""
        some ("```" ++ language ++ "\n" ++ jsTrim (textContent ce) ++ "\n```\n\n")
    | none =>
        let gutters := preGutterSels.flatMap (fun s => qsa e [s])
        if gutters ≠ [] then
          (removeGutters gutters e).map (fun temp =>
            "```\n" ++ jsTrim (textContent temp) ++ "\n```\n\n")
        else
          some ("```\n" ++ jsTrim (textContent e) ++ "\n```\n\n")
  else if e.tagName = "BLOCKQUOTE" then
    (processBlockContent rec e).map quoteRender
  else if e.tagName = "TABLE" then
    let rows := qsa e [.tagSel "tr"]
    let hasGutter := (qs e tableGutterSels).isSome
    let hasCode := (qs e tableCodeSels).isSome
    if rows.length ≤ 1 || (hasGutter && hasCode) then tableCodeOrBlock rec e
    else tableNormal rec e
  else processBlockContent rec e

/-- The fuel-tied serializer. -/
def mdF : Nat → Node → Bool → Option String
  | 0, _, _ => none
  | fuel + 1, e, isInline => mdBody (mdF fuel) e isInline

/-- The recursive call available to the dispatch body when the serializer is
entered at e (used to state branch-level theorems without fuel arithmetic). -/
def mdRec (e : Node) : Node → Bool → Option String := mdF (sizeN e)

/-- convertToMarkdown.  Fuel sizeN e + 1 is ample: every recursive call
descends to a proper subtree, whose size is strictly smaller, so the fuel
never reaches 0 before the tree bottoms out. -/
def convertToMarkdown (e : Node) (isInline : Bool) : Option String :=
  mdF (sizeN e + 1) e isInline

/-! ## Shared lemmas -/

/-- The serializer's one-step unfolding: entering convertToMarkdown runs the
dispatch body with the fuel-tied recursive call. -/
theorem convertToMarkdown_unfold (e : Node) (i : Bool) :
    convertToMarkdown e i = mdBody (mdRec e) e i := rfl

/-- Option.mapM sends nonempty lists to nonempty results. -/
theorem mapM_ne_nil {α β : Type} (f : α → Option β) (l : List α) (r : List β)
    (hl : l ≠ []) (h : l.mapM f = some r) : r ≠ [] := by
  cases l with
  | nil => exact absurd rfl hl
  | cons a as =>
      simp only [List.mapM_cons] at h
      cases hf : f a with
      | none => rw [hf] at h; simp at h
      | some b =>
          rw [hf] at h
          cases hr : as.mapM f with
          | none => rw [hr] at h; simp at h
          | some bs =>
              rw [hr] at h
              simp at h
              subst h
              simp

/-- removeTag does not change the tag of a surviving node. -/
theorem isTagNode_removeTag (t s : String) (n : Node) :
    isTagNode t (removeTag s n) = isTagNode t n := by
  cases n <;> simp [removeTag, isTagNode]

mutual
theorem removeTag_idem (t : String) (n : Node) :
    removeTag t (removeTag t n) = removeTag t n := by
  cases n with
  | text s => rfl
  | elem d cs => simp [removeTag, removeTagL_idem]
theorem removeTagL_idem (t : String) (cs : NodeList) :
    removeTagL t (removeTagL t cs) = removeTagL t cs := by
  cases cs with
  | nil => rfl
  | cons c cs =>
      by_cases h : isTagNode t c
      · simp [removeTagL, h, removeTagL_idem]
      · simp [removeTagL, h, isTagNode_removeTag, removeTag_idem, removeTagL_idem]
end

mutual
theorem removeTag_comm (t s : String) (n : Node) :
    removeTag t (removeTag s n) = removeTag s (removeTag t n) := by
  cases n with
  | text v => rfl
  | elem d cs => simp [removeTag, removeTagL_comm]
theorem removeTagL_comm (t s : String) (cs : NodeList) :
    removeTagL t (removeTagL s cs) = removeTagL s (removeTagL t cs) := by
  cases cs with
  | nil => rfl
  | cons c cs =>
      by_cases hs : isTagNode s c <;> by_cases ht : isTagNode t c <;>
        simp [removeTagL, hs, ht, isTagNode_removeTag, removeTag_comm,
              removeTagL_comm]
end

/-- A single tag removal commutes with a whole strip pass. -/
theorem removeTag_stripFold (l : List String) (t : String) (n : Node) :
    removeTag t (l.foldl (fun acc u => removeTag u acc) n) =
      l.foldl (fun acc u => removeTag u acc) (removeTag t n) := by
  induction l generalizing n with
  | nil => rfl
  | cons u l ih =>
      simp only [List.foldl_cons]
      rw [ih, removeTag_comm]

/-- A strip pass over any tag list is idempotent. -/
theorem stripFold_idem (l : List String) (n : Node) :
    l.foldl (fun acc u => removeTag u acc) (l.foldl (fun acc u => removeTag u acc) n) =
      l.foldl (fun acc u => removeTag u acc) n := by
  induction l generalizing n with
  | nil => rfl
  | cons t l ih =>
      simp only [List.foldl_cons]
      rw [removeTag_stripFold l t (removeTag t n), removeTag_idem, ih]

/-- C7: running the denylist strip twice on the same tree yields the same
result as running it once (idempotent noise stripping). -/
theorem noise_strip_idempotent (body : Node) :
    stripNoise (stripNoise body) = stripNoise body :=
  stripFold_idem elementsToRemove body

/-- Dispatch: an IMG element reaches the img branch. -/
theorem mdBody_img (rec : Node → Bool → Option String) (e : Node) (i : Bool)
    (h : e.tagName = "IMG") :
    mdBody rec e i =
      (if jsStartsWith ((getAttr e "src").getD "") "data:image" then some ""
       else some ("![" ++ (getAttr e "alt").getD "" ++ "](" ++
                  (getAttr e "src").getD "" ++ ")")) := by
  simp [mdBody, isHeadingElement, isHeadingTagStr, isInlineElement, inlineTags, h]

/-- Dispatch: a TABLE element reaches the table branch. -/
theorem mdBody_table (rec : Node → Bool → Option String) (e : Node) (i : Bool)
    (h : e.tagName = "TABLE") :
    mdBody rec e i =
      (if (qsa e [.tagSel "tr"]).length ≤ 1 ||
          ((qs e tableGutterSels).isSome && (qs e tableCodeSels).isSome)
       then tableCodeOrBlock rec e else tableNormal rec e) := by
  simp [mdBody, isHeadingElement, isHeadingTagStr, isInlineElement, inlineTags, h]

/-! ## C8: image serialization -/

/-- C8: for every img element, a data:image src serializes to the empty
string, and any other src to exactly `![alt](src)` with absent attributes
defaulting to the empty string. -/
theorem img_serialization (e : Node) (i : Bool) (h : e.tagName = "IMG") :
    convertToMarkdown e i =
      (if jsStartsWith ((getAttr e "src").getD "") "data:image" then some ""
       else some ("![" ++ (getAttr e "alt").getD "" ++ "](" ++
                  (getAttr e "src").getD "" ++ ")")) := by
  rw [convertToMarkdown_unfold, mdBody_img _ _ _ h]

def imgDataEx : Node := el "IMG" [("src", "data:image/png;base64,AAAA"), ("alt", "x")] []
def imgPlainEx : Node := el "IMG" [("src", "https://a/b.png"), ("alt", "x")] []

/-- Witness for C8 at two concrete img elements. -/
theorem img_serialization_witness :
    convertToMarkdown imgDataEx false = some "" ∧
    convertToMarkdown imgPlainEx false = some "![x](https://a/b.png)" := by
  constructor
  · rw [img_serialization imgDataEx false rfl]; decide
  · rw [img_serialization imgPlainEx false rfl]; decide

/-! ## C6: table serialization -/

/-- A pipe-table separator row detector: some line starts with the emitted
separator prefix. -/
def mdHasSepLine (s : String) : Bool :=
  (jsSplitChar '\n' s).any (fun l => jsStartsWith l "| ---")

def tdOnlyTable : Node :=
  el "TABLE" []
    [el "TR" [] [el "TD" [] [txt "a"], el "TD" [] [txt "b"]],
     el "TR" [] [el "TD" [] [txt "c"], el "TD" [] [txt "d"]]]

/-- C6 counterexample: a two-row all-td table is rendered as pipe rows with
no header and no --- separator row, although the claim requires every
multi-row non-code-layout table to carry a header row followed by a
separator row. -/
theorem table_header_counterexample :
    2 ≤ (qsa tdOnlyTable [Sel.tagSel "tr"]).length ∧
    ((qs tdOnlyTable tableGutterSels).isSome &&
      (qs tdOnlyTable tableCodeSels).isSome) = false ∧
    convertToMarkdown tdOnlyTable false = some "| a | b |\n| c | d |\n\n" ∧
    mdHasSepLine "| a | b |\n| c | d |\n\n" = false := by
  refine ⟨by decide, by decide, by decide, by decide⟩

/-- C6 amended: tables with at most one row or a gutter+code layout never
take the pipe-table path (they render as a code fence or plain block
content); every other table renders through the pipe-table path, and its
output starts with a header row followed by a --- separator row exactly when
the first tr has at least one non-excluded th cell. -/
theorem table_render_amended (e : Node) (i : Bool) (h : e.tagName = "TABLE") :
    ((qsa e [Sel.tagSel "tr"]).length ≤ 1 ∨
        ((qs e tableGutterSels).isSome ∧ (qs e tableCodeSels).isSome) →
      convertToMarkdown e i = tableCodeOrBlock (mdRec e) e ∧
      (tableCodeOrBlock (mdRec e) e = processBlockContent (mdRec e) e ∨
       ∃ lang content, tableCodeOrBlock (mdRec e) e =
         some ("```" ++ lang ++ "\n" ++ content ++ "\n```\n\n"))) ∧
    (2 ≤ (qsa e [Sel.tagSel "tr"]).length ∧
        ¬((qs e tableGutterSels).isSome ∧ (qs e tableCodeSels).isSome) →
      convertToMarkdown e i = tableNormal (mdRec e) e ∧
      ∀ hrow, (qsa e [Sel.tagSel "tr"]).head? = some hrow →
        ((qsa hrow [Sel.tagSel "th"]).filter (fun c => !shouldSkipCell c)) ≠ [] →
        ∀ out, tableNormal (mdRec e) e = some out →
          ∃ cells rest, cells ≠ [] ∧
            out = "| " ++ String.intercalate " | " cells ++ " |\n" ++
              "| " ++ String.intercalate " | " (cells.map (fun _ => "---")) ++
              " |\n" ++ rest) := by
  constructor
  · intro hcond
    have hbool : ((qsa e [Sel.tagSel "tr"]).length ≤ 1 ||
        ((qs e tableGutterSels).isSome && (qs e tableCodeSels).isSome)) = true := by
      rcases hcond with h1 | ⟨h2, h3⟩
      · simp [h1]
      · simp [h2, h3]
    constructor
    · rw [convertToMarkdown_unfold, mdBody_table _ _ _ h, if_pos hbool]
    · by_cases hg : ((qs e tableGutterSels).isSome &&
          (qs e tableCodeSels).isSome) = true
      · cases hce : qs e tableCodeSels with
        | none => left; simp [tableCodeOrBlock, hg, hce]
        | some ce =>
            right
            refine ⟨(jsLangMatch (classNameOf ce)).getD "",
                    jsTrim (textContent ce), ?_⟩
            simp only [tableCodeOrBlock]
            rw [Bool.and_eq_true] at hg
            simp [hg.1, hg.2, hce]
      · left
        simp only [tableCodeOrBlock]
        rw [Bool.and_eq_true] at hg
        by_cases h1 : (qs e tableGutterSels).isSome = true <;>
          by_cases h2 : (qs e tableCodeSels).isSome = true <;>
            simp [h1, h2] at hg ⊢
  · rintro ⟨h2, h3⟩
    have hbool : ((qsa e [Sel.tagSel "tr"]).length ≤ 1 ||
        ((qs e tableGutterSels).isSome && (qs e tableCodeSels).isSome)) = false := by
      have hlen : ¬((qsa e [Sel.tagSel "tr"]).length ≤ 1) := by omega
      simp only [Bool.or_eq_false_iff]
      constructor
      · simpa using hlen
      · rw [Bool.and_eq_false_iff]
        by_cases hg1 : (qs e tableGutterSels).isSome = true
        · right; by_cases hg2 : (qs e tableCodeSels).isSome = true
          · exact absurd ⟨hg1, hg2⟩ h3
          · simpa using hg2
        · left; simpa using hg1
    constructor
    · rw [convertToMarkdown_unfold, mdBody_table _ _ _ h, if_neg]
      simp [hbool]
    · intro hrow hhead hths out hout
      simp only [tableNormal, hhead] at hout
      rcases Option.bind_eq_some.mp hout with ⟨cells, hcells, hrest⟩
      rcases Option.bind_eq_some.mp hrest with ⟨body, hbody, hpure⟩
      have hne : cells ≠ [] := mapM_ne_nil _ _ _ hths hcells
      simp only [Option.pure_def, Option.some.injEq] at hpure
      refine ⟨cells, body ++ "\n", hne, ?_⟩
      rw [← hpure, if_pos hne]
      exact String.append_assoc _ _ _

/-! ## C10: inline trimming vs block preservation -/

/-- C10: processInlineContent trims text-node children while
processBlockContent keeps them untrimmed, so inline context drops the
whitespace between a text node and an adjacent inline element while block
context preserves it. -/
theorem inline_trim_vs_block_preserve :
    (∀ (rec : Node → Bool → Option String) (tag : String)
       (attrs : List (String × String)) (s : String),
        processInlineContent rec (el tag attrs [txt s]) = some (jsTrim s) ∧
        processBlockContent rec (el tag attrs [txt s]) =
          some (if s = "" then "" else s ++ "\n")) ∧
    convertToMarkdown (el "H1" [] [txt "Hello ", el "STRONG" [] [txt "world"]]) false
      = some "# Hello**world**\n\n" ∧
    convertToMarkdown (el "P" [] [txt "Hello ", el "STRONG" [] [txt "world"]]) false
      = some "Hello **world**\n" := by
  refine ⟨fun rec tag attrs s => ⟨rfl, ?_⟩, by decide, by decide⟩
  by_cases h : s = ""
  · subst h; rfl
  · have hs : "" ++ s = s := rfl
    simp only [processBlockContent, el, txt, Node.childNodes, NodeList.ofList,
               NodeList.toList, List.foldlM, if_neg h]
    simp [hs, h]

/-! ## C5: heading level parsing -/

/-- C5 evaluation: a div with data-block-type "headingfoo" takes the heading
branch, its level parses to NaN, and the serializer emits zero '#' characters
(instead of the documented level-1 default); a negative parse such as
"heading-2" makes '#'.repeat throw.  The tag-digit case behaves as claimed. -/
theorem heading_level_parse_failure :
    convertToMarkdown (el "DIV" [("data-block-type", "headingfoo")] [txt "foo"]) false
      = some " foo\n\n" ∧
    jsStartsWith "headingfoo" "heading" = true ∧
    parseIntJS (jsReplaceFirst "headingfoo" "heading" "") = none ∧
    convertToMarkdown (el "DIV" [("data-block-type", "heading-2")] [txt "foo"]) false
      = none ∧
    convertToMarkdown (el "H2" [] [txt "foo"]) false = some "## foo\n\n" := by
  refine ⟨by decide, by decide, by decide, by decide, by decide⟩

def thTable : Node :=
  el "TABLE" []
    [el "TR" [] [el "TH" [] [txt "A"], el "TH" [] [txt "B"]],
     el "TR" [] [el "TD" [] [txt "1"], el "TD" [] [txt "2"]]]

def thTableHeaderRow : Node := el "TR" [] [el "TH" [] [txt "A"], el "TH" [] [txt "B"]]

/-- Witness for C6 at a two-row table with a th header row. -/
theorem table_render_amended_witness :
    convertToMarkdown thTable false = tableNormal (mdRec thTable) thTable ∧
    (∃ cells rest, cells ≠ [] ∧
       "| A | B |\n| --- | --- |\n| 1 | 2 |\n\n" =
         "| " ++ String.intercalate " | " cells ++ " |\n" ++
         "| " ++ String.intercalate " | " (cells.map (fun _ => "---")) ++
         " |\n" ++ rest) := by
  have h := (table_render_amended thTable false rfl).2 ⟨by decide, by decide⟩
  exact ⟨h.1, h.2 thTableHeaderRow (by decide) (by decide)
    "| A | B |\n| --- | --- |\n| 1 | 2 |\n\n" (by decide)⟩

/-! ## C9: metadata reader -/

/-- getMetaContent never returns the empty string. -/
theorem getMetaContent_ne_empty (d : Document) (name : String) :
    getMetaContent d name ≠ some "" := by
  unfold getMetaContent
  cases hq : docQS d (metaSelsFor name) with
  | none => simp
  | some m =>
      cases hc : getAttr m "content" with
      | none => simp [hc]
      | some c =>
          by_cases h : c = "" <;> simp [hc, h]

/-- C9: the metadata reader yields undefined (none), never the empty string,
for a missing meta tag, a missing content attribute, or empty content; a
nonempty keywords string is comma-split and trimmed into an array. -/
theorem metadata_reader_fields (d : Document) :
    (readMetadata d).description ≠ some "" ∧
    (readMetadata d).author ≠ some "" ∧
    (readMetadata d).publishedTime ≠ some "" ∧
    (∀ name, docQS d (metaSelsFor name) = none → getMetaContent d name = none) ∧
    (∀ name m, docQS d (metaSelsFor name) = some m →
       getAttr m "content" = none → getMetaContent d name = none) ∧
    (∀ name m, docQS d (metaSelsFor name) = some m →
       getAttr m "content" = some "" → getMetaContent d name = none) ∧
    (getMetaContent d "keywords" = none → (readMetadata d).keywords = none) ∧
    (∀ s, getMetaContent d "keywords" = some s →
       s ≠ "" ∧ (readMetadata d).keywords = some ((jsSplitChar ',' s).map jsTrim)) := by
  refine ⟨getMetaContent_ne_empty d "description",
          getMetaContent_ne_empty d "author",
          getMetaContent_ne_empty d "article:published_time",
          ?_, ?_, ?_, ?_, ?_⟩
  · intro name hq; simp [getMetaContent, hq]
  · intro name m hq hc; simp [getMetaContent, hq, hc]
  · intro name m hq hc; simp [getMetaContent, hq, hc]
  · intro hk; simp [readMetadata, hk]
  · intro s hk
    constructor
    · intro hs
      subst hs
      exact getMetaContent_ne_empty d "keywords" hk
    · simp [readMetadata, hk]

def docM : Document :=
  { head := el "HEAD" []
      [el "META" [("name", "description"), ("content", "desc")] [],
       el "META" [("name", "keywords"), ("content", "a, b ,c")] [],
       el "META" [("name", "author"), ("content", "")] [],
       el "META" [("property", "article:published_time"), ("content", "2024")] []],
    body := el "BODY" [] [], url := "" }

def authorMetaEx : Node := el "META" [("name", "author"), ("content", "")] []

/-- Witness for C9 at a concrete head with present, empty and comma-valued
meta tags. -/
theorem metadata_reader_fields_witness :
    (readMetadata docM).keywords = some ["a", "b", "c"] ∧
    getMetaContent docM "author" = none := by
  obtain ⟨-, -, -, -, -, hEmptyContent, -, hKw⟩ := metadata_reader_fields docM
  constructor
  · have h := (hKw "a, b ,c" (by decide)).2
    rw [h]; decide
  · exact hEmptyContent "author" authorMetaEx (by decide) (by decide)

/-! ## C4: the scoring function as an additive sum of signals

The signal definitions below transcribe the spec's section 4.1 step 4
listing, one definition per signal, at the same 200x scale as
scoreElement200.  scoreSignalsSum200 is the amended flat sum (with the
text-length signal halved below the minimum content length, which the source
applies); scoreClaimSum200 is the sum exactly as the claim lists the signals
(no halving). -/

def lengthSignal200 (e : Node) : Int :=
  let textLength := trimTextLen e
  if textLength < 100 then min (2 * (textLength : Int)) 10000 / 2
  else min (2 * (textLength : Int)) 10000

/-- The text-length signal exactly as the claim words it: length/100 capped
at 50 points, with no short-text halving. -/
def lengthSignalClaim200 (e : Node) : Int := min (2 * (trimTextLen e : Int)) 10000

def paragraphSignal200 (e : Node) : Int := min (400 * (countTag e "p" : Int)) 6000

def headingSignal200 (e : Node) : Int :=
  min (1600 * ((qsa e headingSels).length : Int)) 8000

def headingHierarchyBonus200 (e : Node) : Int :=
  if 2 ≤ (qsa e headingSels).length ∧ (qs e [.tagSel "h1", .tagSel "h2"]).isSome ∧
      (qs e [.tagSel "h3", .tagSel "h4", .tagSel "h5", .tagSel "h6"]).isSome
  then 3000 else 0

def codeBlockSignal200 (e : Node) : Int :=
  min (2000 * ((qsa e codeBlockSels).length : Int)) 6000

def apiElementsBonus200 (e : Node) : Int :=
  if 0 < (qsa e apiSels).length then 4000 else 0

def imageSignal200 (e : Node) : Int := min (600 * (countTag e "img" : Int)) 3000

def tableSignal200 (e : Node) : Int := min (3000 * (countTag e "table" : Int)) 6000

def complexTableBonus200 (e : Node) : Int :=
  if 0 < countTag e "table" ∧ 3 < (qsa e [.tagSel "tr"]).length ∧
      10 < (qsa e [.tagSel "td", .tagSel "th"]).length
  then 3000 else 0

def linkDensityPenalty200 (e : Node) : Int :=
  if 2 * max (trimTextLen e) 1 < 5 * countTag e "a" then 3000 else 0

def tagBonus200 (e : Node) : Int :=
  (if e.tagName = "ARTICLE" then 6000 else 0) +
  (if e.tagName = "MAIN" then 5000 else 0) +
  (if e.tagName = "SECTION" then 3000 else 0) +
  (if getAttr e "role" = some "main" then 5000 else 0) +
  (if getAttr e "role" = some "document" then 5000 else 0) +
  (if getAttr e "role" = some "article" then 5000 else 0)

def listSignal200 (e : Node) : Int :=
  min (1000 * ((qsa e [.tagSel "ul", .tagSel "ol"]).length : Int)) 3000

def listRichBonus200 (e : Node) : Int :=
  if 0 < (qsa e [.tagSel "ul", .tagSel "ol"]).length ∧
      8 < (qsa e [.tagSel "li"]).length
  then 2000 else 0

def introBonus200 (e : Node) : Int :=
  if matchesAnyPattern (textContent e) introPatterns then 3000 else 0

def apiKeywordBonus200 (e : Node) : Int :=
  if matchesAnyPattern (textContent e) apiKeywordPatterns then 4000 else 0

def codeRatioBonus200 (e : Node) : Int :=
  if 0 < countTextNodes e ∧ 0 < (qsa e [.tagSel "code", .tagSel "pre"]).length ∧
      countTextNodes e < 20 * (qsa e [.tagSel "code", .tagSel "pre"]).length ∧
      2 * (qsa e [.tagSel "code", .tagSel "pre"]).length < countTextNodes e
  then 3000 else 0

def contentKeywordBonus200 (e : Node) : Int :=
  if hasContentKeyword (lowerStr (classNameOf e)) ∨
      hasContentKeyword (lowerStr (idOf e))
  then 2000 else 0

/-- The flat additive sum of the signals, with the source's halved length
signal (the amended form). -/
def scoreSignalsSum200 (e : Node) (depth : Nat) : Int :=
  lengthSignal200 e + paragraphSignal200 e + headingSignal200 e +
  headingHierarchyBonus200 e + codeBlockSignal200 e + apiElementsBonus200 e +
  imageSignal200 e + tableSignal200 e + complexTableBonus200 e -
  linkDensityPenalty200 e + tagBonus200 e - 300 * (depth : Int) +
  listSignal200 e + listRichBonus200 e + introBonus200 e +
  apiKeywordBonus200 e + codeRatioBonus200 e + contentKeywordBonus200 e

/-- The flat additive sum of the signals exactly as the claim lists them
(text length capped at 50 points, no halving). -/
def scoreClaimSum200 (e : Node) (depth : Nat) : Int :=
  lengthSignalClaim200 e + paragraphSignal200 e + headingSignal200 e +
  headingHierarchyBonus200 e + codeBlockSignal200 e + apiElementsBonus200 e +
  imageSignal200 e + tableSignal200 e + complexTableBonus200 e -
  linkDensityPenalty200 e + tagBonus200 e - 300 * (depth : Int) +
  listSignal200 e + listRichBonus200 e + introBonus200 e +
  apiKeywordBonus200 e + codeRatioBonus200 e + contentKeywordBonus200 e

def zChars (n : Nat) : String := ⟨List.replicate n 'z'⟩

def shortArticleEx : Node := el "ARTICLE" [] [txt (zChars 90)]

/-- C4 counterexample: on a non-excluded article with 90 characters of text
the source halves the length signal (score 30.45, scaled 6090), while the
claimed signal sum gives 30.9 (scaled 6180). -/
theorem scoring_claim_counterexample :
    isExcludedElement shortArticleEx = false ∧
    scoreElement200 shortArticleEx 0 = 6090 ∧
    max 0 (scoreClaimSum200 shortArticleEx 0) = 6180 ∧
    scoreElement200 shortArticleEx 0 ≠ max 0 (scoreClaimSum200 shortArticleEx 0) := by
  refine ⟨by decide, by decide, by decide, by decide⟩

/-- C4 amended: for every non-excluded element the score is exactly the
additive sum of the listed signals with the text-length signal halved below
the 100-character minimum, floored at 0; the score is never negative. -/
theorem scoring_additive_amended (e : Node) (depth : Nat) :
    0 ≤ scoreElement200 e depth ∧
    (isExcludedElement e = false →
      scoreElement200 e depth = max 0 (scoreSignalsSum200 e depth)) := by
  constructor
  · unfold scoreElement200
    split
    · exact le_refl 0
    · exact le_max_left 0 _
  · intro h
    simp only [scoreElement200, h, Bool.false_eq_true, if_false,
      scoreSignalsSum200, lengthSignal200, paragraphSignal200, headingSignal200,
      headingHierarchyBonus200, codeBlockSignal200, apiElementsBonus200,
      imageSignal200, tableSignal200, complexTableBonus200, linkDensityPenalty200,
      tagBonus200, listSignal200, listRichBonus200, introBonus200,
      apiKeywordBonus200, codeRatioBonus200, contentKeywordBonus200]
    ring_nf

/-- Witness for C4 at the concrete short article. -/
theorem scoring_additive_amended_witness :
    scoreElement200 shortArticleEx 0 = max 0 (scoreSignalsSum200 shortArticleEx 0) ∧
    0 ≤ scoreElement200 shortArticleEx 0 := by
  have h := scoring_additive_amended shortArticleEx 0
  exact ⟨h.2 (by decide), h.1⟩

/-! ## Concrete documents for the locator claims -/

def emptyP : Node := el "P" [] []
def emptyImg : Node := el "IMG" [] []
def bigUl : Node := el "UL" [] (List.replicate 9 (el "LI" [] []))
def emptyUl : Node := el "UL" [] []
def emptyH2 : Node := el "H2" [] []
def emptyH3 : Node := el "H3" [] []
def emptyTd : Node := el "TD" [] []
def rowOf3 : Node := el "TR" [] [emptyTd, emptyTd, emptyTd]
def bigTable : Node := el "TABLE" [] [rowOf3, rowOf3, rowOf3, rowOf3]
def smallTable : Node := el "TABLE" [] [el "TR" [] [emptyTd]]

/-- A document whose candidate pool, semantic layer and platform layer are
all empty. -/
def docA : Document :=
  { head := el "HEAD" [] [], body := el "BODY" [] [txt "hello"], url := "" }

def shortArtB : Node := el "ARTICLE" [] [txt (zChars 50)]

/-- A document whose only candidate is a 50-character article (below the
minimum content length, with no better-length alternative). -/
def docB : Document :=
  { head := el "HEAD" [] [], body := el "BODY" [] [shortArtB], url := "" }

def semRecB : MainContentResult :=
  { element := shortArtB, conf40000 := 25200, score200 := 18000, textLength := 50 }
def scoredRecB : MainContentResult :=
  { element := shortArtB, conf40000 := 5750, score200 := 5750, textLength := 50 }

/-- An 80-character article decorated to score 198.9 points (scaled 39780). -/
def artTopC1 : Node :=
  el "ARTICLE" []
    ([txt (zChars 80)] ++ List.replicate 15 emptyP ++
     [emptyH2, emptyH3, emptyH2, emptyH3, emptyH2] ++ [bigUl, emptyUl, emptyUl] ++
     List.replicate 5 emptyImg ++ [bigTable, smallTable])

/-- A 200-character article scoring 145.5 points (scaled 29100): longer than
twice the top candidate and above 70% of its score. -/
def artIntC1 : Node :=
  el "ARTICLE" []
    ([txt (zChars 200)] ++ List.replicate 10 emptyP ++
     [emptyH2, emptyH3, emptyH2, emptyH3, emptyH2] ++ [bigUl, emptyUl, emptyUl] ++
     List.replicate 5 emptyImg)

/-- The document refuting the unconditional short-top-to-body fallback: the
sorted top has 80 characters, but the better-length search fires first. -/
def docC1 : Document :=
  { head := el "HEAD" [] [], body := el "BODY" [] [artTopC1, artIntC1], url := "" }

def topRecC1 : MainContentResult :=
  { element := artTopC1, conf40000 := 39780, score200 := 39780, textLength := 80 }
def intRecC1 : MainContentResult :=
  { element := artIntC1, conf40000 := 29100, score200 := 29100, textLength := 200 }
def semRecC1 : MainContentResult :=
  { element := artTopC1, conf40000 := 25200, score200 := 18000, textLength := 80 }

/-- A 400-character article scoring 147.5 points (scaled 29500): within 50
points of the platform rule's fixed 190, and longer. -/
def artC2 : Node :=
  el "ARTICLE" []
    ([txt (zChars 400)] ++ List.replicate 10 emptyP ++
     [emptyH2, emptyH3, emptyH2, emptyH3, emptyH2] ++ [bigUl, emptyUl, emptyUl] ++
     List.replicate 5 emptyImg)

def feishuDivC2 : Node := el "DIV" [("class", "page-block-children")] [txt (zChars 150)]

/-- A Feishu-detected document whose platform element holds 150 characters
(above the minimum) and still loses the selection to the scored article. -/
def docC2 : Document :=
  { head := el "HEAD" [] [],
    body := el "BODY" []
      [artC2, el "DIV" [("class", "bear-web-x-container")] [], feishuDivC2],
    url := "" }

def platRecC2 : MainContentResult :=
  { element := feishuDivC2, conf40000 := 38000, score200 := 38000, textLength := 150 }

def feishuDivW : Node := el "DIV" [("class", "page-block-children")] [txt (zChars 100)]

/-- A document whose platform rule fires from the head while the body holds
no candidate at all, so the platform result is the sole pooled candidate. -/
def docW : Document :=
  { head := el "HEAD" []
      [el "DIV" [("class", "page-block-content")] [], feishuDivW],
    body := el "BODY" [] [txt "hello"], url := "" }

def platRecW : MainContentResult :=
  { element := feishuDivW, conf40000 := 38000, score200 := 38000, textLength := 100 }

/-- A 120-character article scoring 199.7 points (scaled 39940). -/
def artTopC3 : Node :=
  el "ARTICLE" []
    ([txt (zChars 120)] ++ List.replicate 15 emptyP ++
     [emptyH2, emptyH3, emptyH2, emptyH3, emptyH2] ++ [bigUl, emptyUl, emptyUl] ++
     List.replicate 5 emptyImg ++ [bigTable, smallTable])

/-- A 240-character article scoring 145.9 points (scaled 29180): exactly
twice the top length and above 70% of the top score. -/
def artOtherC3 : Node :=
  el "ARTICLE" []
    ([txt (zChars 240)] ++ List.replicate 10 emptyP ++
     [emptyH2, emptyH3, emptyH2, emptyH3, emptyH2] ++ [bigUl, emptyUl, emptyUl] ++
     List.replicate 5 emptyImg)

/-- The document refuting the at-least-2x reading of the better-length rule:
the exactly-2x candidate satisfies the claim's conditions but the strict
comparison skips it. -/
def docC3 : Document :=
  { head := el "HEAD" [] [], body := el "BODY" [] [artTopC3, artOtherC3], url := "" }

def topRecC3 : MainContentResult :=
  { element := artTopC3, conf40000 := 39940, score200 := 39940, textLength := 120 }
def otherRecC3 : MainContentResult :=
  { element := artOtherC3, conf40000 := 29180, score200 := 29180, textLength := 240 }
def semRecC3 : MainContentResult :=
  { element := artTopC3, conf40000 := 36000, score200 := 18000, textLength := 120 }

/-! ## C1: totality and the body fallback -/

/-- C1 counterexample: in docC1 the sorted top candidate has 80 characters of
text (below the 100-character minimum), yet findMainContent returns the
better-length candidate's article, not the cleaned document body. -/
theorem locator_short_top_counterexample :
    ((jsSortStable resultLE (recognitionResults docC1)).head?.map
        (fun r => r.textLength)) = some 80 ∧
    (80 : Nat) < 100 ∧
    findMainContent docC1 = artIntC1 ∧
    artIntC1 ≠ contentContainerOf docC1 := by
  refine ⟨by decide, by decide, by decide, by decide⟩

/-- C1 amended: findMainContent always yields an element (it is total by
construction); an empty candidate pool returns the cleaned body, and a
sorted top candidate below the minimum content length returns the cleaned
body unless the better-length search finds a replacement, in which case that
candidate's element is returned. -/
theorem locator_fallback_amended (d : Document) :
    (recognitionResults d = [] → findMainContent d = contentContainerOf d) ∧
    (∀ top rest, jsSortStable resultLE (recognitionResults d) = top :: rest →
      top.textLength < 100 →
      ((top :: rest).find? (fun c => betterLengthCond top c) = none →
        findMainContent d = contentContainerOf d) ∧
      (∀ c, (top :: rest).find? (fun c => betterLengthCond top c) = some c →
        findMainContent d = c.element)) := by
  constructor
  · intro h
    simp [findMainContent, selectTop, h, jsSortStable]
  · intro top rest hsort hlen
    have h300 : top.textLength < 300 := by omega
    constructor
    · intro hfind
      unfold findMainContent selectTop
      rw [hsort]
      simp [if_pos h300, hfind, hlen]
    · intro c hfindc
      unfold findMainContent selectTop
      rw [hsort]
      simp [if_pos h300, hfindc]

/-- Witness for C1 at a document with no candidates and at a document whose
only candidate is too short. -/
theorem locator_fallback_amended_witness :
    findMainContent docA = contentContainerOf docA ∧
    findMainContent docB = contentContainerOf docB := by
  constructor
  · exact (locator_fallback_amended docA).1 (by decide)
  · exact ((locator_fallback_amended docB).2 semRecB [scoredRecB]
      (by decide) (by decide)).1 (by decide)

/-! ## C2: the platform-override layer -/

/-- C2 counterexample: the Feishu rule fires on docC2 and its element holds
150 > 100 characters, yet the locator selects the scored article instead, so
the platform match does not short-circuit the later layers. -/
theorem platform_no_short_circuit_counterexample :
    trySpecificPlatforms docC2 = some platRecC2 ∧
    (100 : Nat) < platRecC2.textLength ∧
    findMainContent docC2 ≠ platRecC2.element ∧
    findMainContent docC2 = artC2 := by
  refine ⟨by decide, by decide, by decide, by decide⟩

theorem selectTop_single (r : MainContentResult) (container : Node) :
    selectTop [r] container = if 100 ≤ r.textLength then r.element else container := by
  have hno : betterLengthCond r r = false := by
    have h2 : ¬(r.textLength * 2 < r.textLength) := by omega
    simp [betterLengthCond, h2]
  have hfind : List.find? (fun c => betterLengthCond r c) [r] = none := by
    simp [List.find?, hno]
  unfold selectTop
  simp only [jsSortStable, insertStable, hfind, Option.map_none', ite_self]
  show (if r.textLength < 100 then container else r.element) = _
  by_cases hl : r.textLength < 100
  · rw [if_pos hl, if_neg (by omega)]
  · rw [if_neg hl, if_pos (by omega)]

/-- C2 amended: a firing platform rule contributes the first entry of the
pooled candidate list (with its fixed score) rather than short-circuiting;
when it is the only pooled candidate it wins exactly when its text length
reaches the 100-character minimum, and the cleaned body is returned
otherwise. -/
theorem platform_layer_amended (d : Document) (r : MainContentResult) :
    (trySpecificPlatforms d = some r →
      ∃ rest, recognitionResults d = r :: rest) ∧
    (recognitionResults d = [r] →
      findMainContent d =
        (if 100 ≤ r.textLength then r.element else contentContainerOf d)) := by
  constructor
  · intro h
    unfold recognitionResults
    rw [h]
    exact ⟨_, rfl⟩
  · intro h
    unfold findMainContent
    rw [h]
    exact selectTop_single r (contentContainerOf d)

/-- Witness for C2 at a document where the platform result is the sole
pooled candidate with exactly the minimum content length. -/
theorem platform_layer_amended_witness :
    (∃ rest, recognitionResults docW = platRecW :: rest) ∧
    findMainContent docW = feishuDivW := by
  constructor
  · exact (platform_layer_amended docW platRecW).1 (by decide)
  · have h := (platform_layer_amended docW platRecW).2 (by decide)
    rw [h]; decide

/-! ## C3: sorted selection and the better-length rule -/

/-- C3 counterexample: in docC3 the sorted top has 120 < 300 characters and
the pool holds a candidate with exactly twice its text length and a score at
least 70% of the top score; the claim requires that candidate to be
returned, but the source's strict comparisons skip it and the top candidate
wins. -/
theorem better_length_boundary_counterexample :
    jsSortStable resultLE (recognitionResults docC3) = [topRecC3, otherRecC3, semRecC3] ∧
    topRecC3.textLength < 300 ∧
    otherRecC3.textLength = 2 * topRecC3.textLength ∧
    7 * topRecC3.score200 ≤ 10 * otherRecC3.score200 ∧
    findMainContent docC3 = topRecC3.element ∧
    topRecC3.element ≠ otherRecC3.element := by
  refine ⟨by decide, by decide, by decide, by decide, by decide, by decide⟩

/-- C3 amended: candidates are ordered by the stable sort under the
comparator resultLE (score descending when scores differ by more than 50,
text length descending otherwise); when the sorted top is below 300
characters, the first candidate in sorted order with strictly more than
twice the top's text length and a score strictly above 70% of the top score
(cross-multiplied) is returned. -/
theorem better_length_amended (results : List MainContentResult) (container : Node) :
    ∀ top rest, jsSortStable resultLE results = top :: rest →
      top.textLength < 300 →
      ∀ c, (top :: rest).find? (fun x => betterLengthCond top x) = some c →
        selectTop results container = c.element ∧
        2 * top.textLength < c.textLength ∧
        7 * top.score200 < 10 * c.score200 := by
  intro top rest hsort h300 c hfind
  have hcond := List.find?_some hfind
  simp only [betterLengthCond, Bool.and_eq_true, decide_eq_true_eq] at hcond
  refine ⟨?_, by omega, hcond.2⟩
  unfold selectTop
  rw [hsort]
  simp [if_pos h300, hfind]

/-- Witness for C3 at docC1, where the better-length search fires. -/
theorem better_length_amended_witness :
    selectTop (recognitionResults docC1) (contentContainerOf docC1) = artIntC1 ∧
    2 * (80 : Nat) < 200 ∧ 7 * (39780 : Int) < 10 * 29100 := by
  have h := better_length_amended (recognitionResults docC1) (contentContainerOf docC1)
    topRecC1 [intRecC1, semRecC1] (by decide) (by decide) intRecC1 (by decide)
  exact ⟨h.1, by omega, by omega⟩
